import Mathlib

/-!
Verification of the CMS orthopedic collector (`cms_orthopedic_collector.py`).

The development shallowly embeds the collection-and-persistence pipeline:
raw JSON-like records, the Atlanta/orthopedic record filter, the two entity
extractors, the SQLite-backed store (physicians / procedure_data /
collection_logs tables, modelled as in-memory lists), the per-year collector
`collect_year_data` and the multi-year driver `run_full_collection`.

Python/JSON scalar values are modelled by `Value`; machine floats are
modelled as exact rationals (`ℚ`), which is faithful for everything the
properties below touch (the numeric fields are only parsed, defaulted and
carried through; IEEE specials such as inf/nan never arise).  Fallible
Python code (conversions that can raise, the record filter whose `.upper()`
calls can raise `AttributeError`) is embedded with `Except`.
-/

set_option autoImplicit false

namespace CMS

/-- A JSON / Python scalar value as it appears in a CMS record field. -/
inductive Value where
  | null
  | str (s : String)
  | int (n : Int)
  | num (q : ℚ)
deriving DecidableEq, Repr

/-- Python truthiness of a scalar (`bool(v)`): `None`, `0`, `0.0` and the
empty string are falsy, everything else is truthy. -/
def truthy : Value → Bool
  | .null => false
  | .str s => !s.isEmpty
  | .int n => decide (n ≠ 0)
  | .num q => decide (q ≠ 0)

/-- Python `v or w`: returns `v` when `v` is truthy, else `w`. -/
def pyOr (v w : Value) : Value :=
  if truthy v then v else w

/-- Python `str(v)` as used by the f-string building the display name.
(The rendering of a numeric value in a *name* field is abstracted by the
exact rational printer; no verified property looks at a numeric name.) -/
def pyStr : Value → String
  | .null => "None"
  | .str s => s
  | .int n => toString n
  | .num q => toString q

/-- Python `str.strip()` whitespace stripping, on the character list.
(`String.trim` itself is avoided: it does not reduce definitionally.) -/
def stripChars (cs : List Char) : List Char :=
  ((cs.dropWhile Char.isWhitespace).reverse.dropWhile Char.isWhitespace).reverse

/-- Python `s.strip()`. -/
def pyStrip (s : String) : String := ⟨stripChars s.data⟩

/-- Python `s.upper()` (faithful on the ASCII data these records hold). -/
def pyUpper (s : String) : String := ⟨s.data.map Char.toUpper⟩

/-- Digits of a decimal literal folded into a natural number. -/
def digitsToNat (cs : List Char) : Nat :=
  cs.foldl (fun a c => a * 10 + (c.toNat - '0'.toNat)) 0

/-- A nonempty all-digit character run. -/
def allDigits (cs : List Char) : Bool :=
  !cs.isEmpty && cs.all (·.isDigit)

/-- Python `int(s)` on a string: strip whitespace, optional sign, digits;
anything else raises `ValueError`.  (Underscore digit separators are not
modelled; none of the verified properties involve them.) -/
def pyIntOfStr (s : String) : Except String Int :=
  let err : Except String Int :=
    .error ("invalid literal for int() with base 10: " ++ s)
  match stripChars s.data with
  | '+' :: cs => if allDigits cs then .ok (digitsToNat cs : Int) else err
  | '-' :: cs => if allDigits cs then .ok (-(digitsToNat cs : Int)) else err
  | cs => if allDigits cs then .ok (digitsToNat cs : Int) else err

/-- Optional leading sign of a numeric literal. -/
def parseSign : List Char → Int × List Char
  | '+' :: cs => (1, cs)
  | '-' :: cs => (-1, cs)
  | cs => (1, cs)

/-- Unsigned decimal mantissa: `digits`, `digits.digits`, `digits.` or
`.digits`, as accepted by Python's `float`. -/
def parseFrac (cs : List Char) : Option ℚ :=
  let ip := cs.takeWhile (·.isDigit)
  match cs.dropWhile (·.isDigit) with
  | [] => if ip.isEmpty then none else some (digitsToNat ip : ℚ)
  | '.' :: rest =>
    let fp := rest.takeWhile (·.isDigit)
    match rest.dropWhile (·.isDigit) with
    | [] =>
      if ip.isEmpty && fp.isEmpty then none
      else some ((digitsToNat ip : ℚ) + (digitsToNat fp : ℚ) / ((10 : ℚ) ^ fp.length))
    | _ => none
  | _ => none

/-- Python `float(s)` on a string: signed decimal mantissa with optional
exponent.  (IEEE `inf`/`nan` literals are outside the rational model and are
treated as conversion failures; no verified property involves them.) -/
def pyFloatOfStr (s : String) : Except String ℚ :=
  let t := stripChars s.data
  let m := t.takeWhile (fun c => !(c == 'e' || c == 'E'))
  let expv : Option Int :=
    match t.dropWhile (fun c => !(c == 'e' || c == 'E')) with
    | [] => some 0
    | _ :: ecs =>
      let p := parseSign ecs
      if allDigits p.2 then some (p.1 * (digitsToNat p.2 : Int)) else none
  let pm := parseSign m
  match parseFrac pm.2, expv with
  | some q, some e => .ok ((pm.1 : ℚ) * q * (10 : ℚ) ^ e)
  | _, _ => .error ("could not convert string to float: " ++ s)

/-- Truncation of a rational toward zero, as Python `int(float)` does. -/
def truncRat (q : ℚ) : Int :=
  if 0 ≤ q.num then ((q.num.toNat / q.den : Nat) : Int)
  else -(((-q.num).toNat / q.den : Nat) : Int)

/-- Python `int(v)`: exact on ints, truncates floats toward zero, parses
integer strings, raises on `None` and on non-integer strings. -/
def pyInt : Value → Except String Int
  | .int n => .ok n
  | .num q => .ok (truncRat q)
  | .str s => pyIntOfStr s
  | .null => .error "int() argument must be a string or a number, not NoneType"

/-- Python `float(v)`: exact on ints and floats, parses numeric strings,
raises on `None` and on non-numeric strings. -/
def pyFloat : Value → Except String ℚ
  | .int n => .ok (n : ℚ)
  | .num q => .ok q
  | .str s => pyFloatOfStr s
  | .null => .error "float() argument must be a string or a number, not NoneType"

/-- A raw CMS record: a mapping from field names to scalar values,
as produced by `response.json()['records']`. -/
def RawRecord : Type := List (String × Value)

instance : DecidableEq RawRecord := by
  unfold RawRecord; infer_instance

instance : Repr RawRecord := by
  unfold RawRecord; infer_instance

/-- Python `record.get(k, d)`. -/
def rget (r : RawRecord) (k : String) (d : Value) : Value :=
  match r.find? (fun p => p.1 == k) with
  | some p => p.2
  | none => d

/-- `record.get(k, '')` — the getter used for string-typed fields. -/
def getS (r : RawRecord) (k : String) : Value := rget r k (.str "")

/-- `record.get(k, 0)` — the getter used for numeric fields. -/
def getN (r : RawRecord) (k : String) : Value := rget r k (.int 0)

/-- `PhysicianProfile` dataclass.  Field values are kept as raw scalars,
exactly as the Python dataclass would hold whatever `record.get` returned. -/
structure PhysicianProfile where
  npi : Value
  first_name : Value
  last_name : Value
  organization_name : Value
  street_address_1 : Value
  city : Value
  state : Value
  zip_code : Value
  country : Value
  specialty_description : Value
  specialty_code : Value
  medicare_participation : Value
deriving DecidableEq, Repr

/-- `ProcedureData` dataclass. -/
structure ProcedureData where
  npi : Value
  physician_name : String
  year : Int
  hcpcs_code : Value
  hcpcs_description : Value
  line_service_count : Int
  beneficiary_unique_count : Int
  average_submitted_charge : ℚ
  average_medicare_allowed : ℚ
  average_medicare_payment : ℚ
  average_medicare_standard_payment : ℚ
deriving DecidableEq, Repr

/-- `extract_physician_profile`: pure field remapping (source lines 214–229).
Note that both `specialty_code` and `medicare_participation` are read from
the `Medicare_Participation_Indicator` field, exactly as in the source. -/
def extract_physician_profile (r : RawRecord) : PhysicianProfile :=
  { npi := getS r "Rndrng_NPI"
    first_name := getS r "Rndrng_Prvdr_First_Name"
    last_name := getS r "Rndrng_Prvdr_Last_Name"
    organization_name := getS r "Rndrng_Prvdr_Org_Name"
    street_address_1 := getS r "Rndrng_Prvdr_St1"
    city := getS r "Rndrng_Prvdr_City"
    state := getS r "Rndrng_Prvdr_State_Abrvtn"
    zip_code := getS r "Rndrng_Prvdr_Zip5"
    country := getS r "Rndrng_Prvdr_Cntry"
    specialty_description := getS r "Provider_Type"
    specialty_code := getS r "Medicare_Participation_Indicator"
    medicare_participation := getS r "Medicare_Participation_Indicator" }

/-- `extract_procedure_data` (source lines 231–247).  The six numeric
conversions `int(record.get(k, 0) or 0)` / `float(record.get(k, 0) or 0)`
are evaluated in source order; the first failing conversion raises, which is
embedded as `Except.error`. -/
def extract_procedure_data (r : RawRecord) (year : Int) : Except String ProcedureData :=
  let physician_name :=
    pyStrip (pyStr (getS r "Rndrng_Prvdr_First_Name") ++ " " ++
      pyStr (getS r "Rndrng_Prvdr_Last_Name"))
  match pyInt (pyOr (getN r "Tot_Srvcs") (.int 0)) with
  | .error e => .error e
  | .ok line_service_count =>
    match pyInt (pyOr (getN r "Tot_Benes") (.int 0)) with
    | .error e => .error e
    | .ok beneficiary_unique_count =>
      match pyFloat (pyOr (getN r "Avg_Sbmtd_Chrg") (.int 0)) with
      | .error e => .error e
      | .ok average_submitted_charge =>
        match pyFloat (pyOr (getN r "Avg_Mdcr_Alowd_Amt") (.int 0)) with
        | .error e => .error e
        | .ok average_medicare_allowed =>
          match pyFloat (pyOr (getN r "Avg_Mdcr_Pymt_Amt") (.int 0)) with
          | .error e => .error e
          | .ok average_medicare_payment =>
            match pyFloat (pyOr (getN r "Avg_Mdcr_Stdzd_Amt") (.int 0)) with
            | .error e => .error e
            | .ok average_medicare_standard_payment =>
              .ok { npi := getS r "Rndrng_NPI"
                    physician_name
                    year
                    hcpcs_code := getS r "HCPCS_Cd"
                    hcpcs_description := getS r "HCPCS_Desc"
                    line_service_count
                    beneficiary_unique_count
                    average_submitted_charge
                    average_medicare_allowed
                    average_medicare_payment
                    average_medicare_standard_payment }

/-- Python substring containment `pat in s`. -/
def strContains (s pat : String) : Bool :=
  (List.range (s.data.length + 1)).any (fun i => pat.data.isPrefixOf (s.data.drop i))

/-- The Atlanta metro ZIP allow-list, verbatim from source lines 138–148
(duplicates included). -/
def atlanta_zips : List String :=
  ["30309", "30324", "30326", "30327", "30305", "30306", "30307", "30308",
   "30309", "30310", "30311", "30312", "30313", "30314", "30315", "30316",
   "30317", "30318", "30319", "30324", "30325", "30326", "30327", "30328",
   "30329", "30331", "30332", "30334", "30336", "30337", "30338", "30339",
   "30340", "30341", "30342", "30344", "30345", "30346", "30347", "30348",
   "30349", "30350", "30354", "30360", "30361", "30363", "30364", "30366",
   "30368", "30369", "30370", "30371", "30374", "30375", "30376", "30377",
   "30378", "30380", "30384", "30385", "30388", "30392", "30394", "30396",
   "30398"]

/-- The orthopedic specialty allow-list (source lines 153–159). -/
def orthopedic_specialties : List String :=
  ["Orthopedic Surgery", "Orthopaedic Surgery", "Hand Surgery",
   "Sports Medicine", "Interventional Pain Management"]

/-- The years with a configured dataset resource id (source lines 57–63). -/
def resource_years : List Int := [2022, 2021, 2020, 2019, 2018]

/-- The per-record filter of `search_atlanta_orthopedic_physicians`
(source lines 183–201): geography is ZIP membership in `atlanta_zips` OR a
case-insensitive *substring* test of the city against five city names;
specialty is a case-insensitive substring test against
`orthopedic_specialties`.  The Python `.upper()` calls raise
`AttributeError` when the city or specialty value is not a string, which is
embedded as `Except.error`. -/
def classify_record (r : RawRecord) : Except String Bool :=
  let zip_code := getS r "Rndrng_Prvdr_Zip5"
  let specialtyV := getS r "Provider_Type"
  match getS r "Rndrng_Prvdr_City" with
  | .str cityS =>
    let city := pyUpper cityS
    let is_atlanta_area :=
      atlanta_zips.any (fun z => zip_code == .str z)
        || strContains city "ATLANTA" || strContains city "DECATUR"
        || strContains city "MARIETTA" || strContains city "ROSWELL"
        || strContains city "ALPHARETTA"
    match specialtyV with
    | .str specialty =>
      .ok (is_atlanta_area
        && orthopedic_specialties.any (fun o =>
             strContains (pyUpper specialty) (pyUpper o)))
    | _ => .error "AttributeError: object has no attribute upper"
  | _ => .error "AttributeError: object has no attribute upper"

/-- The classifier as the claim words it (spec section 4.2): geography is ZIP
membership OR a case-insensitive *exact match* of the city against the five
fixed city names; specialty is the substring test.  Stated from the spec's
words only, to be compared with `classify_record`, which is translated from
the source. -/
def claim_accepts (r : RawRecord) : Bool :=
  let zipMatch := atlanta_zips.any (fun z => getS r "Rndrng_Prvdr_Zip5" == .str z)
  let city := match getS r "Rndrng_Prvdr_City" with | .str s => s | _ => ""
  let specialty := match getS r "Provider_Type" with | .str s => s | _ => ""
  let cityMatch :=
    ["ATLANTA", "DECATUR", "MARIETTA", "ROSWELL", "ALPHARETTA"].any
      (fun c => pyUpper city == c)
  let specialtyMatch :=
    orthopedic_specialties.any (fun o => strContains (pyUpper specialty) (pyUpper o))
  (zipMatch || cityMatch) && specialtyMatch

/-- Outcome of the single bounded-time HTTP request: either a response with
a status code and parsed records, or a transport/timeout exception. -/
inductive FetchOutcome where
  | success (status : Nat) (records : List RawRecord)
  | failure (msg : String)
deriving DecidableEq, Repr

/-- True when the remote fetch failed (non-2xx response or raised
transport/timeout error), the failure cases named by the spec. -/
def fetchFailed : FetchOutcome → Bool
  | .failure _ => true
  | .success status _ => !(status == 200)

/-- The record-filtering loop of `search_atlanta_orthopedic_physicians`.
An `AttributeError` raised by the filter mid-loop is caught by the
function's outer `except`, so the records accepted *before* the error are
still returned (the `return all_records` after the handler). -/
def classifyLoop : List RawRecord → List RawRecord → List RawRecord
  | [], acc => acc
  | r :: rs, acc =>
    match classify_record r with
    | .error _ => acc
    | .ok true => classifyLoop rs (acc ++ [r])
    | .ok false => classifyLoop rs acc

/-- `search_atlanta_orthopedic_physicians` (source lines 128–212): unknown
year yields `[]`; a transport error or a non-200 response is logged and
swallowed, yielding `[]`; a 200 response is filtered by `classify_record`.
The `limit` argument only parameterizes the remote request, which the
`FetchOutcome` already embodies. -/
def search_atlanta_orthopedic_physicians (year : Int) (limit : Nat)
    (outcome : FetchOutcome) : List RawRecord :=
  let _ := limit
  if resource_years.contains year then
    match outcome with
    | .failure _ => []
    | .success status records =>
      if status == 200 then classifyLoop records [] else []
  else []

/-- One row of the `collection_logs` table. -/
structure LogRow where
  year : Int
  status : String
  records_collected : Int
  physicians_found : Int
  error_message : Option String
deriving DecidableEq, Repr

/-- The three tables of the SQLite store. `procedure_data`'s autoincrement
id is implicit in list position; `created_at` timestamps are not modelled. -/
structure DBState where
  physicians : List PhysicianProfile
  procedure_data : List ProcedureData
  collection_logs : List LogRow
deriving DecidableEq, Repr

/-- The freshly initialized store (`init_database` creates empty tables). -/
def emptyDB : DBState := { physicians := [], procedure_data := [], collection_logs := [] }

/-- One `INSERT OR REPLACE INTO physicians` statement: SQLite deletes any
row conflicting on the `npi` primary key and inserts the new row. -/
def upsert_physician (t : List PhysicianProfile) (p : PhysicianProfile) :
    List PhysicianProfile :=
  t.filter (fun q => !(q.npi == p.npi)) ++ [p]

/-- `save_physician_data` (source lines 249–275): one upsert per profile,
committed as a batch. -/
def save_physician_data (ps : List PhysicianProfile) (st : DBState) : DBState :=
  { st with physicians := ps.foldl upsert_physician st.physicians }

/-- `save_procedure_data` (source lines 277–302): plain appends, no
deduplication. -/
def save_procedure_data (procs : List ProcedureData) (st : DBState) : DBState :=
  { st with procedure_data := st.procedure_data ++ procs }

/-- `log_collection_run` (source lines 304–315): append one audit row. -/
def log_collection_run (year : Int) (status : String) (records physicians : Int)
    (error : Option String) (st : DBState) : DBState :=
  { st with collection_logs :=
      st.collection_logs ++ [⟨year, status, records, physicians, error⟩] }

/-- Store fault model for one `collect_year_data` invocation: which of the
SQLite operations (if any) raises.  A raising operation applies none of its
writes (its transaction is never committed).  `logTryFail` makes the run-log
writes issued inside the `try` block raise while the `FAILED` log written by
the `except` handler succeeds (a transient store error); `logAllFail` makes
every run-log write raise (store unreachable). -/
inductive StoreFault where
  | ok
  | physFail (msg : String)
  | procFail (msg : String)
  | logTryFail (msg : String)
  | logAllFail (msg : String)
deriving DecidableEq, Repr

/-- The error message when run-log writes inside the `try` block raise. -/
def logRaisesInTry : StoreFault → Option String
  | .logTryFail m => some m
  | .logAllFail m => some m
  | _ => none

/-- The error message when the `FAILED` run-log write in the `except`
handler itself raises. -/
def logRaisesInHandler : StoreFault → Option String
  | .logAllFail m => some m
  | _ => none

/-- The `except` handler of `collect_year_data` (source lines 358–362):
log a `FAILED` run with the error detail and yield `(0, 0)`; if that log
write itself raises, the new exception propagates to the caller. -/
def failed_period (fault : StoreFault) (year : Int) (emsg : String) (st : DBState) :
    DBState × Except String (Nat × Nat) :=
  match logRaisesInHandler fault with
  | some m => (st, .error m)
  | none => (log_collection_run year "FAILED" 0 0 (some emsg) st, .ok (0, 0))

/-- Python dict assignment `d[k] = v`, preserving insertion order: an
existing key is updated in place, a new key is appended. -/
def dictInsert {κ α : Type} [BEq κ] (d : List (κ × α)) (k : κ) (v : α) :
    List (κ × α) :=
  if d.any (fun p => p.1 == k) then
    d.map (fun p => if p.1 == k then (k, v) else p)
  else d ++ [(k, v)]

/-- The record-processing loop of `collect_year_data` (source lines
334–343): build the `physicians_dict` keyed by NPI (last-seen-wins, empty
NPI never inserted) and the `procedures` list (only records with truthy NPI
and HCPCS code).  An exception from `extract_procedure_data` aborts the
loop and is embedded as `Except.error`. -/
def processRecords (year : Int) :
    List RawRecord → List (Value × PhysicianProfile) → List ProcedureData →
    Except String (List (Value × PhysicianProfile) × List ProcedureData)
  | [], dict, procs => .ok (dict, procs)
  | r :: rs, dict, procs =>
    let physician := extract_physician_profile r
    let dict' :=
      if truthy physician.npi then dictInsert dict physician.npi physician else dict
    match extract_procedure_data r year with
    | .error e => .error e
    | .ok procedure =>
      let procs' :=
        if truthy procedure.npi && truthy procedure.hcpcs_code then
          procs ++ [procedure]
        else procs
      processRecords year rs dict' procs'

/-- `collect_year_data` (source lines 317–362).  The fetch is represented by
its `FetchOutcome`; the store by the explicit `DBState` plus the
`StoreFault` oracle.  `save_physician_data` / `save_procedure_data` return
before touching the store on empty input, so a store fault on an op only
fires when that op actually executes SQL (the `if not xs: return` guards).
The second component is `.ok counts` on normal return and `.error` when an
exception escapes (which happens only when the `FAILED` log write in the
handler itself raises). -/
def collect_year_data (year : Int) (outcome : FetchOutcome) (fault : StoreFault)
    (st : DBState) : DBState × Except String (Nat × Nat) :=
  match search_atlanta_orthopedic_physicians year 2000 outcome with
  | [] =>
    match logRaisesInTry fault with
    | some m => failed_period fault year m st
    | none => (log_collection_run year "NO_DATA" 0 0 none st, .ok (0, 0))
  | r :: rs =>
    match processRecords year (r :: rs) [] [] with
    | .error e => failed_period fault year e st
    | .ok (dict, procs) =>
      let physicians := dict.map (fun p => p.2)
      let step2 : DBState → DBState × Except String (Nat × Nat) := fun stA =>
        let st2 := save_procedure_data procs stA
        match logRaisesInTry fault with
        | some m => failed_period fault year m st2
        | none =>
          (log_collection_run year "SUCCESS" (procs.length : Int)
            (physicians.length : Int) none st2,
           .ok (physicians.length, procs.length))
      let step1 : DBState → DBState × Except String (Nat × Nat) := fun stA =>
        let st1 := save_physician_data physicians stA
        match fault with
        | .procFail m => if procs.isEmpty then step2 st1 else failed_period fault year m st1
        | _ => step2 st1
      match fault with
      | .physFail m =>
        if physicians.isEmpty then step1 st else failed_period fault year m st
      | _ => step1 st

/-- `COUNT(*)` of `procedure_data` rows for one year. -/
def yearLineCount (st : DBState) (y : Int) : Nat :=
  (st.procedure_data.filter (fun p => p.year == y)).length

/-- `COUNT(DISTINCT npi)` of `procedure_data` rows for one year. -/
def yearPhysCount (st : DBState) (y : Int) : Nat :=
  ((st.procedure_data.filter (fun p => p.year == y)).map (fun p => p.npi)).toFinset.card

/-- `SELECT COUNT(DISTINCT npi) FROM physicians`. -/
def total_physicians_count (st : DBState) : Nat :=
  (st.physicians.map (fun p => p.npi)).toFinset.card

/-- The summary returned by `get_collection_summary` (source lines 392–439).
The `top_procedures` aggregate touches no verified property and is omitted;
`recent_logs` is the last ten audit rows, newest first. -/
structure CollectionSummary where
  total_physicians : Nat
  year_summary : List (Int × Nat × Nat)
  recent_logs : List LogRow
deriving DecidableEq, Repr

/-- `get_collection_summary`, translated from its three modelled queries. -/
def get_collection_summary (st : DBState) : CollectionSummary :=
  { total_physicians := total_physicians_count st
    year_summary :=
      (((st.procedure_data.map (fun p => p.year)).dedup.mergeSort
          (fun a b => decide (b ≤ a))).map
        (fun y => (y, yearLineCount st y, yearPhysCount st y)))
    recent_logs := st.collection_logs.reverse.take 10 }

/-- One value of the per-year result map built by `run_full_collection`:
either the `physicians` / `procedures` counts, or (when an exception escaped
`collect_year_data`) zero counts plus the error string. -/
inductive PeriodEntry where
  | counts (physicians procedures : Nat)
  | errorEntry (physicians procedures : Nat) (msg : String)
deriving DecidableEq, Repr

/-- Observable events of a multi-year run: one `collected` event per
`collect_year_data` call, and one `slept` event per `time.sleep` pause. -/
inductive Event where
  | collected (year : Int)
  | slept (seconds : Nat)
deriving DecidableEq, Repr

/-- The years for which events are `collected` events, in order. -/
def collectedYears (es : List Event) : List Int :=
  es.filterMap (fun e => match e with | .collected y => some y | _ => none)

/-- The loop of `run_full_collection` (source lines 375–387): call
`collect_year_data` per year; on normal return record the counts and pause
two seconds; on an escaped exception record an error entry (with zero
counts) and continue with the next year. -/
def run_loop (outcomes : Int → FetchOutcome) (faults : Int → StoreFault) :
    List Int → DBState → List (Int × PeriodEntry) → List Event →
    DBState × List (Int × PeriodEntry) × List Event
  | [], st, results, events => (st, results, events)
  | y :: ys, st, results, events =>
    let out := collect_year_data y (outcomes y) (faults y) st
    match out.2 with
    | .ok pn =>
      run_loop outcomes faults ys out.1
        (dictInsert results y (.counts pn.1 pn.2))
        (events ++ [.collected y, .slept 2])
    | .error e =>
      run_loop outcomes faults ys out.1
        (dictInsert results y (.errorEntry 0 0 e))
        (events ++ [.collected y])

/-- `run_full_collection` (source lines 364–390): `years = None` defaults to
the five most recent reporting periods, newest first. -/
def run_full_collection (years : Option (List Int)) (outcomes : Int → FetchOutcome)
    (faults : Int → StoreFault) (st : DBState) :
    DBState × List (Int × PeriodEntry) × List Event :=
  run_loop outcomes faults (years.getD [2022, 2021, 2020, 2019, 2018]) st [] []

/-! Concrete records used to instantiate the verified properties. -/

/-- NPI of a raw record as the collector keys it (`extract` copies
`Rndrng_NPI` verbatim). -/
def npiOf (r : RawRecord) : Value := getS r "Rndrng_NPI"

/-- HCPCS code of a raw record as the collector reads it. -/
def hcpcsOf (r : RawRecord) : Value := getS r "HCPCS_Cd"

/-- The distinct truthy (non-empty) provider keys of a record batch. -/
def truthyNpiSet (rs : List RawRecord) : Finset Value :=
  ((rs.map npiOf).filter truthy).toFinset

/-- Atlanta city, orthopedic specialty: accepted by the filter. -/
def recAtlantaOrtho : RawRecord :=
  [("Rndrng_Prvdr_City", .str "aTLanta"), ("Provider_Type", .str "Orthopedic Surgery")]

/-- Boston city, orthopedic specialty: rejected (geography). -/
def recBostonOrtho : RawRecord :=
  [("Rndrng_Prvdr_City", .str "Boston"), ("Provider_Type", .str "Orthopedic Surgery")]

/-- Atlanta city, cardiology: rejected (specialty). -/
def recAtlantaCardio : RawRecord :=
  [("Rndrng_Prvdr_City", .str "Atlanta"), ("Provider_Type", .str "Cardiology")]

/-- A city that merely *contains* "Atlanta": accepted by the source's
substring test, rejected by an exact city match. -/
def recAtlantaville : RawRecord :=
  [("Rndrng_Prvdr_City", .str "Atlantaville"), ("Provider_Type", .str "Orthopedic Surgery")]

/-- A record whose service count is a non-empty non-numeric string. -/
def recNonNumeric : RawRecord :=
  [("Rndrng_NPI", .str "123"), ("HCPCS_Cd", .str "99213"), ("Tot_Srvcs", .str "N/A")]

/-- A record with some numeric fields present (a string service count, an
integer allowed amount) and the rest — including `Avg_Sbmtd_Chrg` —
missing. -/
def recPartial : RawRecord :=
  [("Rndrng_NPI", .str "1"), ("HCPCS_Cd", .str "99213"),
   ("Tot_Srvcs", .str "12"), ("Avg_Mdcr_Alowd_Amt", .int 13)]

/-- First of two records sharing NPI "1", at address "1 First St". -/
def recDup1 : RawRecord :=
  [("Rndrng_NPI", .str "1"), ("Rndrng_Prvdr_St1", .str "1 First St"),
   ("Rndrng_Prvdr_City", .str "ATLANTA"), ("Provider_Type", .str "Hand Surgery")]

/-- Second of two records sharing NPI "1", at address "2 Second Ave". -/
def recDup2 : RawRecord :=
  [("Rndrng_NPI", .str "1"), ("Rndrng_Prvdr_St1", .str "2 Second Ave"),
   ("Rndrng_Prvdr_City", .str "ATLANTA"), ("Provider_Type", .str "Hand Surgery")]

/-- An accepted record with NPI and HCPCS code both present. -/
def recAccepted : RawRecord :=
  [("Rndrng_NPI", .str "1"), ("Rndrng_Prvdr_City", .str "ATLANTA"),
   ("Provider_Type", .str "Hand Surgery"), ("HCPCS_Cd", .str "99213")]

/-- Invariant of the `physicians_dict` built by the collection loop: keys
are distinct, and each entry maps a truthy NPI to a profile carrying that
NPI. -/
def DictInv (d : List (Value × PhysicianProfile)) : Prop :=
  (d.map (fun p => p.1)).Nodup ∧ ∀ p ∈ d, p.2.npi = p.1 ∧ truthy p.1 = true

/-- At most one `physicians` row per NPI key. -/
def AtMostOnePerKey (t : List PhysicianProfile) : Prop :=
  ∀ k : Value, (t.filter (fun q => q.npi == k)).length ≤ 1

/-- Number of distinct non-empty (truthy) provider keys in a batch — the
"P" of the round-trip aggregate property. -/
def periodKeyCount (rs : List RawRecord) : Nat := (truthyNpiSet rs).card

/-- Number of batch records with truthy provider key and procedure code —
the per-period service-line count of the round-trip aggregate property. -/
def periodLineCount (rs : List RawRecord) : Nat :=
  rs.countP (fun rec => truthy (npiOf rec) && truthy (hcpcsOf rec))

/-- Profile extracted from `recDup1`. -/
def profW1 : PhysicianProfile := extract_physician_profile recDup1

/-- Profile extracted from `recDup2`. -/
def profW2 : PhysicianProfile := extract_physician_profile recDup2

/-- Profile extracted from `recAccepted`. -/
def profW : PhysicianProfile := extract_physician_profile recAccepted

/-- The service line extracted from `recAccepted` for 2022. -/
def procW : ProcedureData :=
  { npi := .str "1"
    physician_name := ""
    year := 2022
    hcpcs_code := .str "99213"
    hcpcs_description := .str ""
    line_service_count := 0
    beneficiary_unique_count := 0
    average_submitted_charge := 0
    average_medicare_allowed := 0
    average_medicare_payment := 0
    average_medicare_standard_payment := 0 }

/-! Helper lemmas about the scalar model and the extractors. -/

theorem pyOr_falsy {v : Value} (h : truthy v = false) : pyOr v (.int 0) = .int 0 := by
  simp [pyOr, h]

theorem extract_ok_fields {r : RawRecord} {y : Int} {p : ProcedureData}
    (h : extract_procedure_data r y = .ok p) :
    p.npi = getS r "Rndrng_NPI" ∧ p.hcpcs_code = getS r "HCPCS_Cd" ∧ p.year = y := by
  unfold extract_procedure_data at h
  repeat' split at h
  all_goals first
    | exact Except.noConfusion h
    | (cases h; exact ⟨rfl, rfl, rfl⟩)

theorem search_eq_nil_of_fetchFailed {year : Int} {limit : Nat} {outcome : FetchOutcome}
    (h : fetchFailed outcome = true) :
    search_atlanta_orthopedic_physicians year limit outcome = [] := by
  unfold search_atlanta_orthopedic_physicians
  cases outcome with
  | failure m => split <;> rfl
  | success status records =>
    simp only [fetchFailed, Bool.not_eq_true'] at h
    split
    · simp [h]
    · rfl

/-! Helper lemmas about `dictInsert` (Python dict assignment). -/

theorem dictInsert_keys_of_mem {κ α : Type} [DecidableEq κ] {d : List (κ × α)}
    {k : κ} {v : α} (h : d.any (fun p => p.1 == k) = true) :
    (dictInsert d k v).map (fun p => p.1) = d.map (fun p => p.1) := by
  unfold dictInsert
  rw [if_pos h, List.map_map]
  refine List.map_congr_left (fun p _ => ?_)
  by_cases hk : p.1 = k
  · simp [hk]
  · simp [hk]

theorem dictInsert_of_not_mem {κ α : Type} [DecidableEq κ] {d : List (κ × α)}
    {k : κ} {v : α} (h : d.any (fun p => p.1 == k) = false) :
    dictInsert d k v = d ++ [(k, v)] := by
  unfold dictInsert
  rw [if_neg (by simp [h])]

theorem dictInsert_keys_toFinset {κ α : Type} [DecidableEq κ] (d : List (κ × α))
    (k : κ) (v : α) :
    ((dictInsert d k v).map (fun p => p.1)).toFinset =
      insert k (d.map (fun p => p.1)).toFinset := by
  by_cases h : d.any (fun p => p.1 == k) = true
  · rw [dictInsert_keys_of_mem h]
    have hk : k ∈ d.map (fun p => p.1) := by
      simp only [List.any_eq_true, beq_iff_eq] at h
      obtain ⟨p, hp, hpk⟩ := h
      exact List.mem_map.2 ⟨p, hp, hpk⟩
    ext x
    simp only [Finset.mem_insert, List.mem_toFinset]
    constructor
    · intro hx; exact Or.inr hx
    · rintro (rfl | hx)
      · exact hk
      · exact hx
  · rw [dictInsert_of_not_mem (Bool.eq_false_iff.2 h)]
    ext x
    simp only [List.map_append, List.toFinset_append, Finset.mem_union,
      List.mem_toFinset, List.map_cons, List.map_nil, Finset.mem_insert,
      List.mem_cons, List.not_mem_nil, or_false]
    tauto

theorem dictInsert_keys_nodup {κ α : Type} [DecidableEq κ] {d : List (κ × α)}
    {k : κ} {v : α} (h : (d.map (fun p => p.1)).Nodup) :
    ((dictInsert d k v).map (fun p => p.1)).Nodup := by
  by_cases hm : d.any (fun p => p.1 == k) = true
  · rw [dictInsert_keys_of_mem hm]; exact h
  · rw [dictInsert_of_not_mem (Bool.eq_false_iff.2 hm)]
    have hk : k ∉ d.map (fun p => p.1) := by
      simp only [List.any_eq_true, beq_iff_eq] at hm
      intro hmem
      obtain ⟨p, hp, hpk⟩ := List.mem_map.1 hmem
      exact hm ⟨p, hp, hpk⟩
    simp only [List.map_append, List.map_cons, List.map_nil]
    exact List.Nodup.append h (List.nodup_singleton k)
      (by simpa [List.disjoint_singleton] using hk)

theorem dictInsert_length_of_mem {κ α : Type} [DecidableEq κ] {d : List (κ × α)}
    {k : κ} {v : α} (h : d.any (fun p => p.1 == k) = true) :
    (dictInsert d k v).length = d.length := by
  unfold dictInsert
  rw [if_pos h, List.length_map]

theorem dictInsert_length_of_not_mem {κ α : Type} [DecidableEq κ] {d : List (κ × α)}
    {k : κ} {v : α} (h : d.any (fun p => p.1 == k) = false) :
    (dictInsert d k v).length = d.length + 1 := by
  rw [dictInsert_of_not_mem h, List.length_append, List.length_singleton]

theorem dictInsert_find?_self {κ α : Type} [DecidableEq κ] (d : List (κ × α))
    (k : κ) (v : α) :
    (dictInsert d k v).find? (fun p => p.1 == k) = some (k, v) := by
  by_cases hm : d.any (fun p => p.1 == k) = true
  · unfold dictInsert
    rw [if_pos hm]
    induction d with
    | nil => simp at hm
    | cons p ps ih =>
      by_cases hk : p.1 = k
      · simp [hk]
      · simp only [List.any_cons, Bool.or_eq_true, beq_iff_eq] at hm
        rcases hm with hm | hm
        · exact absurd hm hk
        · simpa [hk] using ih hm
  · rw [dictInsert_of_not_mem (Bool.eq_false_iff.2 hm)]
    rw [List.find?_append]
    have hnone : d.find? (fun p => p.1 == k) = none := by
      rw [List.find?_eq_none]
      intro p hp
      simp only [List.any_eq_true, beq_iff_eq] at hm
      simp only [beq_iff_eq]
      exact fun hk => hm ⟨p, hp, hk⟩
    simp [hnone]

theorem dictInsert_find?_ne {κ α : Type} [DecidableEq κ] {d : List (κ × α)}
    {k k' : κ} (v : α) (h : k' ≠ k) :
    (dictInsert d k v).find? (fun p => p.1 == k') = d.find? (fun p => p.1 == k') := by
  by_cases hm : d.any (fun p => p.1 == k) = true
  · unfold dictInsert
    rw [if_pos hm]
    clear hm
    induction d with
    | nil => rfl
    | cons p ps ih =>
      rw [List.map_cons]
      by_cases hk : p.1 = k
      · rw [if_pos (by simp [hk])]
        rw [List.find?_cons_of_neg _ (by simp [Ne.symm h]),
          List.find?_cons_of_neg _ (by simp [hk, Ne.symm h])]
        exact ih
      · rw [if_neg (by simp [hk])]
        by_cases hk' : p.1 = k'
        · rw [List.find?_cons_of_pos _ (by simp [hk']),
            List.find?_cons_of_pos _ (by simp [hk'])]
        · rw [List.find?_cons_of_neg _ (by simp [hk']),
            List.find?_cons_of_neg _ (by simp [hk'])]
          exact ih
  · rw [dictInsert_of_not_mem (Bool.eq_false_iff.2 hm), List.find?_append]
    have : ([(k, v)].find? (fun p => p.1 == k')) = none := by
      simp [Ne.symm h]
    cases hd : d.find? (fun p => p.1 == k') <;> simp [this]

/-! Helper lemmas about the record-processing loop. -/

theorem dictInsert_inv {d : List (Value × PhysicianProfile)} {k : Value}
    {v : PhysicianProfile} (hd : DictInv d) (hv : v.npi = k) (hk : truthy k = true) :
    DictInv (dictInsert d k v) := by
  obtain ⟨hnd, hvals⟩ := hd
  constructor
  · exact dictInsert_keys_nodup hnd
  · intro p hp
    by_cases hm : d.any (fun q => q.1 == k) = true
    · unfold dictInsert at hp
      rw [if_pos hm] at hp
      obtain ⟨q, hq, hqe⟩ := List.mem_map.1 hp
      by_cases hqk : q.1 = k
      · rw [if_pos (by simp [hqk])] at hqe
        subst hqe; exact ⟨hv, hk⟩
      · rw [if_neg (by simp [hqk])] at hqe
        subst hqe; exact hvals q hq
    · rw [dictInsert_of_not_mem (Bool.eq_false_iff.2 hm)] at hp
      rcases List.mem_append.1 hp with hp | hp
      · exact hvals p hp
      · simp only [List.mem_singleton] at hp
        subst hp; exact ⟨hv, hk⟩

theorem processRecords_inv {y : Int} {rs : List RawRecord}
    {d dict : List (Value × PhysicianProfile)} {procs out : List ProcedureData}
    (hp : processRecords y rs d procs = .ok (dict, out)) (hd : DictInv d) :
    DictInv dict := by
  induction rs generalizing d procs with
  | nil => cases hp; exact hd
  | cons r rs ih =>
    unfold processRecords at hp
    cases hx : extract_procedure_data r y with
    | error e => rw [hx] at hp; exact Except.noConfusion hp
    | ok procedure =>
      rw [hx] at hp
      refine ih hp ?_
      by_cases ht : truthy (extract_physician_profile r).npi = true
      · rw [if_pos ht]
        exact dictInsert_inv hd rfl ht
      · rw [if_neg ht]; exact hd

theorem processRecords_keys {y : Int} {rs : List RawRecord}
    {d dict : List (Value × PhysicianProfile)} {procs out : List ProcedureData}
    (hp : processRecords y rs d procs = .ok (dict, out)) :
    (dict.map (fun p => p.1)).toFinset =
      (d.map (fun p => p.1)).toFinset ∪ truthyNpiSet rs := by
  induction rs generalizing d procs with
  | nil =>
    cases hp
    simp [truthyNpiSet]
  | cons r rs ih =>
    unfold processRecords at hp
    cases hx : extract_procedure_data r y with
    | error e => rw [hx] at hp; exact Except.noConfusion hp
    | ok procedure =>
      rw [hx] at hp
      have hrec := ih hp
      have hset : truthyNpiSet (r :: rs) =
          (if truthy (npiOf r) then {npiOf r} else ∅) ∪ truthyNpiSet rs := by
        unfold truthyNpiSet
        by_cases ht : truthy (npiOf r) = true
        · simp only [List.map_cons, List.filter_cons, ht, if_true]
          ext x
          simp [List.mem_toFinset]
        · simp [List.filter_cons, Bool.eq_false_iff.2 ht]
      rw [hset]
      have hnr : (extract_physician_profile r).npi = npiOf r := rfl
      by_cases ht : truthy (extract_physician_profile r).npi = true
      · rw [if_pos ht] at hrec
        rw [hrec, dictInsert_keys_toFinset, hnr]
        rw [if_pos (show truthy (npiOf r) = true from ht)]
        ext x
        simp only [Finset.mem_insert, Finset.mem_union, Finset.mem_singleton]
        tauto
      · rw [if_neg ht] at hrec
        rw [hnr] at ht
        rw [Bool.eq_false_iff.2 ht]
        simp only [Bool.false_eq_true, if_false, Finset.empty_union]
        exact hrec

theorem processRecords_count {y : Int} {rs : List RawRecord}
    {d dict : List (Value × PhysicianProfile)} {procs out : List ProcedureData}
    (hp : processRecords y rs d procs = .ok (dict, out)) :
    out.length = procs.length +
      rs.countP (fun r => truthy (npiOf r) && truthy (hcpcsOf r)) := by
  induction rs generalizing d procs with
  | nil => cases hp; simp
  | cons r rs ih =>
    unfold processRecords at hp
    cases hx : extract_procedure_data r y with
    | error e => rw [hx] at hp; exact Except.noConfusion hp
    | ok procedure =>
      rw [hx] at hp
      obtain ⟨hnpi, hhc, _⟩ := extract_ok_fields hx
      have hcond : (truthy procedure.npi && truthy procedure.hcpcs_code) =
          (truthy (npiOf r) && truthy (hcpcsOf r)) := by
        rw [hnpi, hhc]; rfl
      have hp2 : processRecords y rs
          (if truthy (extract_physician_profile r).npi = true then
            dictInsert d (extract_physician_profile r).npi (extract_physician_profile r)
          else d)
          (if (truthy procedure.npi && truthy procedure.hcpcs_code) = true then
            procs ++ [procedure]
          else procs) = .ok (dict, out) := hp
      rw [List.countP_cons]
      by_cases hc : (truthy procedure.npi && truthy procedure.hcpcs_code) = true
      · rw [if_pos hc] at hp2
        rw [ih hp2]
        rw [hcond] at hc
        simp only [hc, if_true, List.length_append, List.length_singleton]
        omega
      · rw [if_neg hc] at hp2
        rw [ih hp2]
        rw [hcond] at hc
        simp only [if_neg hc]
        omega

theorem processRecords_years {y : Int} {rs : List RawRecord}
    {d dict : List (Value × PhysicianProfile)} {procs out : List ProcedureData}
    (hp : processRecords y rs d procs = .ok (dict, out)) :
    ∀ p ∈ out, p ∈ procs ∨ p.year = y := by
  induction rs generalizing d procs with
  | nil => cases hp; exact fun p hpp => Or.inl hpp
  | cons r rs ih =>
    unfold processRecords at hp
    cases hx : extract_procedure_data r y with
    | error e => rw [hx] at hp; exact Except.noConfusion hp
    | ok procedure =>
      rw [hx] at hp
      obtain ⟨_, _, hy⟩ := extract_ok_fields hx
      have hp2 : processRecords y rs
          (if truthy (extract_physician_profile r).npi = true then
            dictInsert d (extract_physician_profile r).npi (extract_physician_profile r)
          else d)
          (if (truthy procedure.npi && truthy procedure.hcpcs_code) = true then
            procs ++ [procedure]
          else procs) = .ok (dict, out) := hp
      intro p hpp
      by_cases hc : (truthy procedure.npi && truthy procedure.hcpcs_code) = true
      · rw [if_pos hc] at hp2
        rcases ih hp2 p hpp with hmem | hyy
        · rcases List.mem_append.1 hmem with hmem | hmem
          · exact Or.inl hmem
          · simp only [List.mem_singleton] at hmem
            subst hmem; exact Or.inr hy
        · exact Or.inr hyy
      · rw [if_neg hc] at hp2
        exact ih hp2 p hpp

theorem processRecords_find? {y : Int} {rs : List RawRecord}
    {d dict : List (Value × PhysicianProfile)} {procs out : List ProcedureData}
    (hp : processRecords y rs d procs = .ok (dict, out)) {k : Value}
    (ht : truthy k = true) :
    dict.find? (fun p => p.1 == k) =
      match rs.reverse.find? (fun r => npiOf r == k) with
      | some r => some (k, extract_physician_profile r)
      | none => d.find? (fun p => p.1 == k) := by
  induction rs generalizing d procs with
  | nil => cases hp; rfl
  | cons r rs ih =>
    unfold processRecords at hp
    cases hx : extract_procedure_data r y with
    | error e => rw [hx] at hp; exact Except.noConfusion hp
    | ok procedure =>
      rw [hx] at hp
      have hrec := ih hp
      cases hfind : rs.reverse.find? (fun r => npiOf r == k) with
      | some r0 =>
        have hs : ((r :: rs).reverse).find? (fun r => npiOf r == k) = some r0 := by
          rw [List.reverse_cons, List.find?_append, hfind]; rfl
        rw [hs]
        rw [hfind] at hrec
        exact hrec
      | none =>
        rw [hfind] at hrec
        by_cases hk : npiOf r = k
        · have hs : ((r :: rs).reverse).find? (fun r => npiOf r == k) = some r := by
            rw [List.reverse_cons, List.find?_append, hfind]
            simp [hk]
          rw [hs]
          show _ = some (k, extract_physician_profile r)
          rw [hrec]
          have htr : truthy (extract_physician_profile r).npi = true := by
            show truthy (npiOf r) = true
            rw [hk]; exact ht
          rw [if_pos htr]
          have hek : (extract_physician_profile r).npi = k := hk
          rw [hek]
          exact dictInsert_find?_self d k (extract_physician_profile r)
        · have hs : ((r :: rs).reverse).find? (fun r => npiOf r == k) = none := by
            rw [List.reverse_cons, List.find?_append, hfind]
            simp [hk]
          rw [hs]
          show _ = d.find? (fun p => p.1 == k)
          rw [hrec]
          by_cases htr : truthy (extract_physician_profile r).npi = true
          · rw [if_pos htr]
            exact dictInsert_find?_ne (extract_physician_profile r)
              (fun he => hk he.symm)
          · rw [if_neg htr]

/-! Helper lemmas about the physicians-dict values and the upsert store. -/

theorem dict_values_npis {d : List (Value × PhysicianProfile)}
    (hd : ∀ p ∈ d, p.2.npi = p.1) :
    (d.map (fun p => p.2)).map (fun q => q.npi) = d.map (fun p => p.1) := by
  rw [List.map_map]
  exact List.map_congr_left (fun p hp => hd p hp)

theorem dict_values_filter {d : List (Value × PhysicianProfile)} (hd : DictInv d)
    (k : Value) :
    (d.map (fun p => p.2)).filter (fun q => q.npi == k) =
      ((d.find? (fun p => p.1 == k)).map (fun p => p.2)).toList := by
  obtain ⟨hnd, hvals⟩ := hd
  induction d with
  | nil => rfl
  | cons p tl ih =>
    have hpk := (hvals p (List.mem_cons_self p tl)).1
    rw [List.map_cons, List.filter_cons]
    by_cases hk : p.1 = k
    · rw [if_pos (by simp [hpk, hk])]
      rw [List.find?_cons_of_pos _ (by simp [hk])]
      have htl : tl.filter (fun q => q.2.npi == k) = [] := by
        rw [List.filter_eq_nil_iff]
        intro q hq
        have hq1 := (hvals q (List.mem_cons_of_mem p hq)).1
        have hkey : q.1 ≠ k := by
          intro hqk
          have : p.1 ∈ tl.map (fun p => p.1) :=
            List.mem_map.2 ⟨q, hq, by rw [hqk, hk]⟩
          exact (List.nodup_cons.1 hnd).1 this
        simp [hq1, hkey]
      have htl2 : (tl.map (fun p => p.2)).filter (fun q => q.npi == k) = [] := by
        rw [List.filter_eq_nil_iff]
        intro q hq
        obtain ⟨q0, hq0, rfl⟩ := List.mem_map.1 hq
        have hq1 := (hvals q0 (List.mem_cons_of_mem p hq0)).1
        have hkey : q0.1 ≠ k := by
          intro hqk
          have : p.1 ∈ tl.map (fun p => p.1) :=
            List.mem_map.2 ⟨q0, hq0, by rw [hqk, hk]⟩
          exact (List.nodup_cons.1 hnd).1 this
        simp [hq1, hkey]
      rw [htl2]
      rfl
    · rw [if_neg (by simp [hpk, hk])]
      rw [List.find?_cons_of_neg _ (by simp [hk])]
      exact ih (List.nodup_cons.1 hnd).2 (fun q hq => hvals q (List.mem_cons_of_mem p hq))

theorem upsert_filter_self {t : List PhysicianProfile} {p : PhysicianProfile} {k : Value}
    (hk : p.npi = k) :
    (upsert_physician t p).filter (fun q => q.npi == k) = [p] := by
  unfold upsert_physician
  rw [List.filter_append, List.filter_filter]
  have h1 : t.filter (fun q => (q.npi == k) && !(q.npi == p.npi)) = [] := by
    rw [List.filter_eq_nil_iff]
    intro q _
    by_cases hq : q.npi = k
    · simp [hq, hk]
    · simp [hq]
  rw [h1]
  simp [hk]

theorem upsert_filter_ne {t : List PhysicianProfile} {p : PhysicianProfile} {k : Value}
    (hk : ¬ p.npi = k) :
    (upsert_physician t p).filter (fun q => q.npi == k) =
      t.filter (fun q => q.npi == k) := by
  unfold upsert_physician
  rw [List.filter_append, List.filter_filter]
  have h2 : [p].filter (fun q => q.npi == k) = [] := by simp [hk]
  rw [h2, List.append_nil]
  refine List.filter_congr (fun q _ => ?_)
  by_cases hq : q.npi = k
  · have hkp : ¬ k = p.npi := fun he => hk he.symm
    simp [hq, hkp]
  · simp [hq]

theorem foldl_upsert_filter_not_mem {ps t : List PhysicianProfile} {k : Value}
    (h : ∀ p ∈ ps, ¬ p.npi = k) :
    (ps.foldl upsert_physician t).filter (fun q => q.npi == k) =
      t.filter (fun q => q.npi == k) := by
  induction ps generalizing t with
  | nil => rfl
  | cons p tl ih =>
    rw [List.foldl_cons]
    rw [ih (fun q hq => h q (List.mem_cons_of_mem p hq))]
    exact upsert_filter_ne (h p (List.mem_cons_self p tl))

theorem foldl_upsert_filter_mem {ps t : List PhysicianProfile} {k : Value}
    {p : PhysicianProfile} (hnd : (ps.map (fun q => q.npi)).Nodup)
    (hp : p ∈ ps) (hk : p.npi = k) :
    (ps.foldl upsert_physician t).filter (fun q => q.npi == k) = [p] := by
  induction ps generalizing t with
  | nil => exact absurd hp (List.not_mem_nil p)
  | cons p0 tl ih =>
    rw [List.foldl_cons]
    rcases List.mem_cons.1 hp with rfl | hmem
    · have hnot : ∀ q ∈ tl, ¬ q.npi = k := by
        intro q hq hqk
        have : p.npi ∈ tl.map (fun q => q.npi) :=
          List.mem_map.2 ⟨q, hq, by rw [hqk, hk]⟩
        exact (List.nodup_cons.1 (by simpa using hnd)).1 this
      rw [foldl_upsert_filter_not_mem hnot]
      exact upsert_filter_self hk
    · exact ih (by simpa using (List.nodup_cons.1 (by simpa using hnd)).2) hmem

theorem upsert_npis_toFinset (t : List PhysicianProfile) (p : PhysicianProfile) :
    ((upsert_physician t p).map (fun q => q.npi)).toFinset =
      insert p.npi (t.map (fun q => q.npi)).toFinset := by
  unfold upsert_physician
  ext x
  simp only [List.map_append, List.toFinset_append, Finset.mem_union,
    List.mem_toFinset, List.mem_map, List.mem_filter, Finset.mem_insert,
    List.map_cons, List.map_nil, List.mem_cons, List.not_mem_nil, or_false]
  constructor
  · rintro (⟨q, ⟨hq, hqp⟩, rfl⟩ | rfl)
    · exact Or.inr ⟨q, hq, rfl⟩
    · exact Or.inl rfl
  · rintro (rfl | ⟨q, hq, rfl⟩)
    · exact Or.inr rfl
    · by_cases hqp : q.npi = p.npi
      · exact Or.inr (by rw [hqp])
      · exact Or.inl ⟨q, ⟨hq, by simp [hqp]⟩, rfl⟩

theorem foldl_upsert_npis_toFinset (ps t : List PhysicianProfile) :
    ((ps.foldl upsert_physician t).map (fun q => q.npi)).toFinset =
      (t.map (fun q => q.npi)).toFinset ∪ (ps.map (fun q => q.npi)).toFinset := by
  induction ps generalizing t with
  | nil => simp
  | cons p tl ih =>
    rw [List.foldl_cons, ih, upsert_npis_toFinset]
    ext x
    simp only [Finset.mem_union, Finset.mem_insert, List.map_cons,
      List.mem_toFinset, List.mem_cons]
    tauto

theorem upsert_AtMostOne {t : List PhysicianProfile} {p : PhysicianProfile}
    (h : AtMostOnePerKey t) : AtMostOnePerKey (upsert_physician t p) := by
  intro k
  by_cases hk : p.npi = k
  · rw [upsert_filter_self hk]
    exact le_refl 1
  · rw [upsert_filter_ne hk]
    exact h k

theorem foldl_upsert_AtMostOne {ps t : List PhysicianProfile}
    (h : AtMostOnePerKey t) : AtMostOnePerKey (ps.foldl upsert_physician t) := by
  induction ps generalizing t with
  | nil => exact h
  | cons p tl ih => exact ih (upsert_AtMostOne h)

/-! Helper lemmas computing the paths through `collect_year_data`. -/

theorem collect_no_data {y : Int} {outcome : FetchOutcome} {st : DBState}
    (h : search_atlanta_orthopedic_physicians y 2000 outcome = []) :
    collect_year_data y outcome .ok st =
      (log_collection_run y "NO_DATA" 0 0 none st, .ok (0, 0)) := by
  unfold collect_year_data
  rw [h]
  rfl

theorem collect_success {y : Int} {outcome : FetchOutcome} {st : DBState}
    {r : RawRecord} {rs : List RawRecord} {dict : List (Value × PhysicianProfile)}
    {procs : List ProcedureData}
    (hrecs : search_atlanta_orthopedic_physicians y 2000 outcome = r :: rs)
    (hp : processRecords y (r :: rs) [] [] = .ok (dict, procs)) :
    collect_year_data y outcome .ok st =
      (log_collection_run y "SUCCESS" (procs.length : Int)
        ((dict.map (fun p => p.2)).length : Int) none
        (save_procedure_data procs
          (save_physician_data (dict.map (fun p => p.2)) st)),
       .ok ((dict.map (fun p => p.2)).length, procs.length)) := by
  unfold collect_year_data
  rw [hrecs]
  dsimp only
  rw [hp]
  rfl

theorem collect_fail_extract {y : Int} {outcome : FetchOutcome} {st : DBState}
    {r : RawRecord} {rs : List RawRecord} {e : String}
    (hrecs : search_atlanta_orthopedic_physicians y 2000 outcome = r :: rs)
    (hp : processRecords y (r :: rs) [] [] = .error e) :
    collect_year_data y outcome .ok st =
      (log_collection_run y "FAILED" 0 0 (some e) st, .ok (0, 0)) := by
  unfold collect_year_data
  rw [hrecs]
  dsimp only
  rw [hp]
  rfl

theorem collect_fail_phys {y : Int} {outcome : FetchOutcome} {st : DBState}
    {r : RawRecord} {rs : List RawRecord} {dict : List (Value × PhysicianProfile)}
    {procs : List ProcedureData} {m : String}
    (hrecs : search_atlanta_orthopedic_physicians y 2000 outcome = r :: rs)
    (hp : processRecords y (r :: rs) [] [] = .ok (dict, procs))
    (hne : dict ≠ []) :
    collect_year_data y outcome (.physFail m) st =
      (log_collection_run y "FAILED" 0 0 (some m) st, .ok (0, 0)) := by
  unfold collect_year_data
  rw [hrecs]
  dsimp only
  rw [hp]
  have hie : (dict.map (fun p => p.2)).isEmpty = false := by
    cases dict with
    | nil => exact absurd rfl hne
    | cons a tl => rfl
  dsimp only
  rw [hie]
  rfl

theorem collect_fail_proc {y : Int} {outcome : FetchOutcome} {st : DBState}
    {r : RawRecord} {rs : List RawRecord} {dict : List (Value × PhysicianProfile)}
    {procs : List ProcedureData} {m : String}
    (hrecs : search_atlanta_orthopedic_physicians y 2000 outcome = r :: rs)
    (hp : processRecords y (r :: rs) [] [] = .ok (dict, procs))
    (hne : procs ≠ []) :
    collect_year_data y outcome (.procFail m) st =
      (log_collection_run y "FAILED" 0 0 (some m)
        (save_physician_data (dict.map (fun p => p.2)) st), .ok (0, 0)) := by
  unfold collect_year_data
  rw [hrecs]
  dsimp only
  rw [hp]
  have hie : procs.isEmpty = false := by
    cases procs with
    | nil => exact absurd rfl hne
    | cons a tl => rfl
  dsimp only
  rw [hie]
  rfl

theorem collect_fail_logtry {y : Int} {outcome : FetchOutcome} {st : DBState}
    {r : RawRecord} {rs : List RawRecord} {dict : List (Value × PhysicianProfile)}
    {procs : List ProcedureData} {m : String}
    (hrecs : search_atlanta_orthopedic_physicians y 2000 outcome = r :: rs)
    (hp : processRecords y (r :: rs) [] [] = .ok (dict, procs)) :
    collect_year_data y outcome (.logTryFail m) st =
      (log_collection_run y "FAILED" 0 0 (some m)
        (save_procedure_data procs
          (save_physician_data (dict.map (fun p => p.2)) st)), .ok (0, 0)) := by
  unfold collect_year_data
  rw [hrecs]
  dsimp only
  rw [hp]
  rfl

theorem collect_snd_ok {y : Int} {outcome : FetchOutcome} {fault : StoreFault}
    {st : DBState} (h : logRaisesInHandler fault = none) :
    ∃ pn, (collect_year_data y outcome fault st).2 = .ok pn := by
  unfold collect_year_data
  cases hs : search_atlanta_orthopedic_physicians y 2000 outcome with
  | nil =>
    dsimp only
    cases hf : logRaisesInTry fault with
    | some m =>
      unfold failed_period
      rw [h]
      exact ⟨_, rfl⟩
    | none => exact ⟨_, rfl⟩
  | cons r rs =>
    dsimp only
    cases hp : processRecords y (r :: rs) [] [] with
    | error e =>
      unfold failed_period
      rw [h]
      exact ⟨_, rfl⟩
    | ok dp =>
      obtain ⟨dict, procs⟩ := dp
      dsimp only
      cases fault with
      | ok => exact ⟨_, rfl⟩
      | physFail m =>
        dsimp only
        cases hde : (dict.map (fun p => p.2)).isEmpty with
        | true =>
          rw [if_pos rfl]
          cases hpe : procs.isEmpty with
          | true => exact ⟨_, rfl⟩
          | false => exact ⟨_, rfl⟩
        | false =>
          rw [if_neg Bool.false_ne_true]
          exact ⟨_, rfl⟩
      | procFail m =>
        dsimp only
        cases hpe : procs.isEmpty with
        | true =>
          rw [if_pos rfl]
          exact ⟨_, rfl⟩
        | false =>
          rw [if_neg Bool.false_ne_true]
          exact ⟨_, rfl⟩
      | logTryFail m => exact ⟨_, rfl⟩
      | logAllFail m => exact absurd h (by simp [logRaisesInHandler])

/-! Helper lemmas about the multi-year driver loop. -/

theorem dictInsert_keys_append {κ α : Type} [DecidableEq κ] {d : List (κ × α)}
    {k : κ} (v : α) (h : k ∉ d.map (fun p => p.1)) :
    (dictInsert d k v).map (fun p => p.1) = d.map (fun p => p.1) ++ [k] := by
  have hany : d.any (fun p => p.1 == k) = false := by
    rw [Bool.eq_false_iff]
    intro hc
    simp only [List.any_eq_true, beq_iff_eq] at hc
    obtain ⟨p, hp, hpk⟩ := hc
    exact h (List.mem_map.2 ⟨p, hp, hpk⟩)
  rw [dictInsert_of_not_mem hany, List.map_append]
  rfl

theorem run_loop_keys {outcomes : Int → FetchOutcome} {faults : Int → StoreFault}
    {ys : List Int} {st : DBState} {acc : List (Int × PeriodEntry)} {ev : List Event}
    (hnd : ys.Nodup) (hdisj : ∀ y ∈ ys, y ∉ acc.map (fun p => p.1)) :
    ((run_loop outcomes faults ys st acc ev).2.1).map (fun p => p.1) =
      acc.map (fun p => p.1) ++ ys := by
  induction ys generalizing st acc ev with
  | nil => simp [run_loop]
  | cons y ys ih =>
    unfold run_loop
    dsimp only
    have hy : y ∉ acc.map (fun p => p.1) := hdisj y (List.mem_cons_self y ys)
    have hstep : ∀ entry : PeriodEntry,
        (dictInsert acc y entry).map (fun p => p.1) = acc.map (fun p => p.1) ++ [y] :=
      fun entry => dictInsert_keys_append entry hy
    have hnext : ∀ y' ∈ ys, y' ∉ acc.map (fun p => p.1) ++ [y] := by
      intro y' hy' hmem
      rcases List.mem_append.1 hmem with hmem | hmem
      · exact hdisj y' (List.mem_cons_of_mem y hy') hmem
      · simp only [List.mem_singleton] at hmem
        subst hmem
        exact (List.nodup_cons.1 hnd).1 hy'
    cases hres : (collect_year_data y (outcomes y) (faults y) st).2 with
    | ok pn =>
      dsimp only
      rw [ih (List.nodup_cons.1 hnd).2 (by rw [hstep]; exact hnext)]
      rw [hstep, List.append_assoc]
      rfl
    | error e =>
      dsimp only
      rw [ih (List.nodup_cons.1 hnd).2 (by rw [hstep]; exact hnext)]
      rw [hstep, List.append_assoc]
      rfl

theorem run_loop_collected {outcomes : Int → FetchOutcome} {faults : Int → StoreFault}
    {ys : List Int} {st : DBState} {acc : List (Int × PeriodEntry)} {ev : List Event} :
    collectedYears (run_loop outcomes faults ys st acc ev).2.2 =
      collectedYears ev ++ ys := by
  induction ys generalizing st acc ev with
  | nil => simp [run_loop]
  | cons y ys ih =>
    unfold run_loop
    dsimp only
    cases hres : (collect_year_data y (outcomes y) (faults y) st).2 with
    | ok pn =>
      dsimp only
      rw [ih]
      unfold collectedYears
      rw [List.filterMap_append, List.append_assoc]
      rfl
    | error e =>
      dsimp only
      rw [ih]
      unfold collectedYears
      rw [List.filterMap_append, List.append_assoc]
      rfl

theorem run_loop_sleeps {outcomes : Int → FetchOutcome} {faults : Int → StoreFault}
    {ys : List Int} {st : DBState} {acc : List (Int × PeriodEntry)} {ev : List Event}
    (h : ∀ e ∈ ev, ∀ n, e = .slept n → n = 2) :
    ∀ e ∈ (run_loop outcomes faults ys st acc ev).2.2, ∀ n, e = .slept n → n = 2 := by
  induction ys generalizing st acc ev with
  | nil => exact h
  | cons y ys ih =>
    unfold run_loop
    dsimp only
    cases hres : (collect_year_data y (outcomes y) (faults y) st).2 with
    | ok pn =>
      dsimp only
      refine ih (fun e he n hen => ?_)
      rcases List.mem_append.1 he with he | he
      · exact h e he n hen
      · simp only [List.mem_cons, List.not_mem_nil, or_false] at he
        rcases he with rfl | rfl
        · exact Event.noConfusion hen
        · cases hen; rfl
    | error e0 =>
      dsimp only
      refine ih (fun e he n hen => ?_)
      rcases List.mem_append.1 he with he | he
      · exact h e he n hen
      · simp only [List.mem_singleton] at he
        subst he
        exact Event.noConfusion hen

theorem run_loop_trace {outcomes : Int → FetchOutcome} {faults : Int → StoreFault}
    {ys : List Int} {st : DBState} {acc : List (Int × PeriodEntry)} {ev : List Event}
    (h : ∀ y ∈ ys, logRaisesInHandler (faults y) = none) :
    (run_loop outcomes faults ys st acc ev).2.2 =
      ev ++ ys.flatMap (fun y => [.collected y, .slept 2]) := by
  induction ys generalizing st acc ev with
  | nil => simp [run_loop]
  | cons y ys ih =>
    unfold run_loop
    dsimp only
    obtain ⟨pn, hok⟩ :=
      @collect_snd_ok y (outcomes y) (faults y) st (h y (List.mem_cons_self y ys))
    rw [hok]
    dsimp only
    rw [ih (fun y' hy' => h y' (List.mem_cons_of_mem y hy'))]
    rw [List.append_assoc]
    rfl

/-- `AtMostOnePerKey` is preserved by any sequence of upsert batches. -/
theorem foldl_batches_AtMostOne {batches : List (List PhysicianProfile)} {st : DBState}
    (h : AtMostOnePerKey st.physicians) :
    AtMostOnePerKey
      ((batches.foldl (fun s b => save_physician_data b s) st).physicians) := by
  induction batches generalizing st with
  | nil => exact h
  | cons b bs ih =>
    rw [List.foldl_cons]
    exact ih (foldl_upsert_AtMostOne h)

/-! The verified properties. -/

/-- C10: in every `PhysicianProfile` produced by `extract_physician_profile`,
the `specialty_code` field equals the `medicare_participation` field, because
both are read from the same source field `Medicare_Participation_Indicator`. -/
theorem specialty_code_eq_participation (r : RawRecord) :
    (extract_physician_profile r).specialty_code =
      (extract_physician_profile r).medicare_participation := rfl

/-- C2 counterexample: a record whose `Tot_Srvcs` field holds the non-empty
non-numeric string "N/A" makes `extract_procedure_data` raise (a Python
`ValueError` from `int`), refuting the claim that extraction never raises
and coerces every non-numeric value to zero. -/
theorem extract_procedure_nonnumeric_cex :
    extract_procedure_data recNonNumeric 2022 =
      .error "invalid literal for int() with base 10: N/A" := by rfl

/-- C2 (amended): whenever each of the six numeric conversions of a record
succeeds — which holds in particular for every field that is missing, null,
or otherwise falsy (empty string, zero), since `x or 0` then defaults it —
`extract_procedure_data` returns without raising, carrying exactly the six
converted values; and each individual field that is missing, null, or falsy
is coerced to zero in the result, independently of what the other fields
hold.  (A non-empty non-numeric string in a numeric field instead raises,
per the counterexample.) -/
theorem extract_procedure_falsy_zero (r : RawRecord) (y : Int)
    (n1 n2 : Int) (q3 q4 q5 q6 : ℚ)
    (h1 : pyInt (pyOr (getN r "Tot_Srvcs") (.int 0)) = .ok n1)
    (h2 : pyInt (pyOr (getN r "Tot_Benes") (.int 0)) = .ok n2)
    (h3 : pyFloat (pyOr (getN r "Avg_Sbmtd_Chrg") (.int 0)) = .ok q3)
    (h4 : pyFloat (pyOr (getN r "Avg_Mdcr_Alowd_Amt") (.int 0)) = .ok q4)
    (h5 : pyFloat (pyOr (getN r "Avg_Mdcr_Pymt_Amt") (.int 0)) = .ok q5)
    (h6 : pyFloat (pyOr (getN r "Avg_Mdcr_Stdzd_Amt") (.int 0)) = .ok q6) :
    (extract_procedure_data r y = .ok
      { npi := getS r "Rndrng_NPI"
        physician_name := pyStrip (pyStr (getS r "Rndrng_Prvdr_First_Name") ++ " " ++
          pyStr (getS r "Rndrng_Prvdr_Last_Name"))
        year := y
        hcpcs_code := getS r "HCPCS_Cd"
        hcpcs_description := getS r "HCPCS_Desc"
        line_service_count := n1
        beneficiary_unique_count := n2
        average_submitted_charge := q3
        average_medicare_allowed := q4
        average_medicare_payment := q5
        average_medicare_standard_payment := q6 }) ∧
    (truthy (getN r "Tot_Srvcs") = false → n1 = 0) ∧
    (truthy (getN r "Tot_Benes") = false → n2 = 0) ∧
    (truthy (getN r "Avg_Sbmtd_Chrg") = false → q3 = 0) ∧
    (truthy (getN r "Avg_Mdcr_Alowd_Amt") = false → q4 = 0) ∧
    (truthy (getN r "Avg_Mdcr_Pymt_Amt") = false → q5 = 0) ∧
    (truthy (getN r "Avg_Mdcr_Stdzd_Amt") = false → q6 = 0) := by
  refine ⟨?_, fun hf => ?_, fun hf => ?_, fun hf => ?_, fun hf => ?_,
    fun hf => ?_, fun hf => ?_⟩
  · unfold extract_procedure_data
    simp only [h1, h2, h3, h4, h5, h6]
  · rw [pyOr_falsy hf] at h1
    simp only [pyInt, Except.ok.injEq] at h1
    exact h1.symm
  · rw [pyOr_falsy hf] at h2
    simp only [pyInt, Except.ok.injEq] at h2
    exact h2.symm
  · rw [pyOr_falsy hf] at h3
    simp only [pyFloat, Int.cast_zero, Except.ok.injEq] at h3
    exact h3.symm
  · rw [pyOr_falsy hf] at h4
    simp only [pyFloat, Int.cast_zero, Except.ok.injEq] at h4
    exact h4.symm
  · rw [pyOr_falsy hf] at h5
    simp only [pyFloat, Int.cast_zero, Except.ok.injEq] at h5
    exact h5.symm
  · rw [pyOr_falsy hf] at h6
    simp only [pyFloat, Int.cast_zero, Except.ok.injEq] at h6
    exact h6.symm

/-- C2 witness: a record with the string "12" as service count and the
integer 13 as allowed amount, but `Avg_Sbmtd_Chrg` (and the remaining
numeric fields) missing: extraction succeeds, the present fields are parsed
through, and each missing field — `Avg_Sbmtd_Chrg` included — is coerced to
zero. -/
theorem extract_procedure_falsy_zero_witness :
    (extract_procedure_data recPartial 2022 = .ok
      { npi := getS recPartial "Rndrng_NPI"
        physician_name := pyStrip (pyStr (getS recPartial "Rndrng_Prvdr_First_Name") ++ " " ++
          pyStr (getS recPartial "Rndrng_Prvdr_Last_Name"))
        year := 2022
        hcpcs_code := getS recPartial "HCPCS_Cd"
        hcpcs_description := getS recPartial "HCPCS_Desc"
        line_service_count := 12
        beneficiary_unique_count := 0
        average_submitted_charge := 0
        average_medicare_allowed := ((13 : Int) : ℚ)
        average_medicare_payment := 0
        average_medicare_standard_payment := 0 }) ∧
    (truthy (getN recPartial "Tot_Srvcs") = false → (12 : Int) = 0) ∧
    (truthy (getN recPartial "Tot_Benes") = false → (0 : Int) = 0) ∧
    (truthy (getN recPartial "Avg_Sbmtd_Chrg") = false → (0 : ℚ) = 0) ∧
    (truthy (getN recPartial "Avg_Mdcr_Alowd_Amt") = false → ((13 : Int) : ℚ) = 0) ∧
    (truthy (getN recPartial "Avg_Mdcr_Pymt_Amt") = false → (0 : ℚ) = 0) ∧
    (truthy (getN recPartial "Avg_Mdcr_Stdzd_Amt") = false → (0 : ℚ) = 0) :=
  extract_procedure_falsy_zero recPartial 2022 12 0 0 ((13 : Int) : ℚ) 0 0
    (by rfl) (by rfl) (by rfl) (by rfl) (by rfl) (by rfl)

/-- C1 counterexample: on a transport failure (`requests` raising a timeout),
the fetch step swallows the error and returns no records, so
`collect_year_data` logs a `NO_DATA` run (with no error detail) rather than
the `FAILED` run the claim requires. -/
theorem collect_fetch_failure_cex :
    collect_year_data 2022 (.failure "Connection timed out") .ok emptyDB =
      ({ emptyDB with collection_logs := [⟨2022, "NO_DATA", 0, 0, none⟩] }, .ok (0, 0)) ∧
    ∀ row ∈ (collect_year_data 2022 (.failure "Connection timed out") .ok emptyDB).1.collection_logs,
      row.status = "NO_DATA" ∧ row.error_message = none := by
  refine ⟨rfl, ?_⟩
  intro row hrow
  have hlogs : (collect_year_data 2022 (.failure "Connection timed out") .ok
      emptyDB).1.collection_logs = [⟨2022, "NO_DATA", 0, 0, none⟩] := rfl
  rw [hlogs] at hrow
  simp only [List.mem_singleton] at hrow
  subst hrow
  exact ⟨rfl, rfl⟩

/-- C1 (amended): if the remote fetch fails (non-2xx response, timeout, or
transport error), the fetch step swallows the error and yields an empty
record list, and `collect_year_data` appends a `NO_DATA` run-log row (with
no error detail) and returns `(0, 0)` for the period; no exception
propagates past the period boundary. -/
theorem collect_fetch_failure_no_data (y : Int) (outcome : FetchOutcome) (st : DBState)
    (h : fetchFailed outcome = true) :
    collect_year_data y outcome .ok st =
      ({ st with collection_logs := st.collection_logs ++ [⟨y, "NO_DATA", 0, 0, none⟩] },
        .ok (0, 0)) :=
  collect_no_data (search_eq_nil_of_fetchFailed h)

/-- C1 witness: a timed-out fetch for 2022 on the fresh store. -/
theorem collect_fetch_failure_no_data_witness :
    collect_year_data 2022 (.failure "timed out") .ok emptyDB =
      ({ emptyDB with collection_logs :=
          emptyDB.collection_logs ++ [⟨2022, "NO_DATA", 0, 0, none⟩] }, .ok (0, 0)) :=
  collect_fetch_failure_no_data 2022 (.failure "timed out") emptyDB rfl

/-- C8: a fetch that returns zero records makes `collect_year_data` append a
`NO_DATA` run-log row and return `(0, 0)`, and neither the physicians table
nor the procedure_data table gains any row. -/
theorem collect_no_data_path (y : Int) (outcome : FetchOutcome) (st : DBState)
    (h : search_atlanta_orthopedic_physicians y 2000 outcome = []) :
    collect_year_data y outcome .ok st =
      ({ st with collection_logs := st.collection_logs ++ [⟨y, "NO_DATA", 0, 0, none⟩] },
        .ok (0, 0)) :=
  collect_no_data h

/-- C8 witness: an empty 200 response for 2022 on the fresh store. -/
theorem collect_no_data_path_witness :
    collect_year_data 2022 (.success 200 []) .ok emptyDB =
      ({ emptyDB with collection_logs :=
          emptyDB.collection_logs ++ [⟨2022, "NO_DATA", 0, 0, none⟩] }, .ok (0, 0)) :=
  collect_no_data_path 2022 (.success 200 []) emptyDB rfl

/-- C5: upserting the same provider key twice via `save_physician_data`
leaves exactly one stored row for that key, holding the second call's
attribute values; and the physicians table holds at most one row per key
after any sequence of upsert batches. -/
theorem physician_upsert_last_write_wins (st : DBState) (k : Value)
    (v1 v2 : PhysicianProfile) (h1 : v1.npi = k) (h2 : v2.npi = k) :
    ((save_physician_data [v2] (save_physician_data [v1] st)).physicians.filter
        (fun q => q.npi == k) = [v2]) ∧
    ∀ batches : List (List PhysicianProfile), AtMostOnePerKey st.physicians →
      AtMostOnePerKey
        ((batches.foldl (fun s b => save_physician_data b s) st).physicians) := by
  constructor
  · show ((upsert_physician (upsert_physician st.physicians v1) v2).filter
      (fun q => q.npi == k)) = [v2]
    exact upsert_filter_self h2
  · intro batches hst
    exact foldl_batches_AtMostOne hst

/-- C5 witness: two profiles sharing NPI "1" with different street
addresses, upserted in sequence into the fresh store. -/
theorem physician_upsert_last_write_wins_witness :
    ((save_physician_data [profW2] (save_physician_data [profW1] emptyDB)).physicians.filter
        (fun q => q.npi == Value.str "1") = [profW2]) ∧
    ∀ batches : List (List PhysicianProfile), AtMostOnePerKey emptyDB.physicians →
      AtMostOnePerKey
        ((batches.foldl (fun s b => save_physician_data b s) emptyDB).physicians) :=
  physician_upsert_last_write_wins emptyDB (.str "1") profW1 profW2 rfl rfl

/-- C3 counterexample: a record with city "Atlantaville" (no ZIP) and an
orthopedic specialty is accepted by the source's classifier (because the
city test is a *substring* test) but rejected by the claim's condition,
which requires the city to match one of the fixed city names exactly
(case-insensitively). -/
theorem classifier_exact_city_cex :
    classify_record recAtlantaville = .ok true ∧
    claim_accepts recAtlantaville = false := by
  refine ⟨by rfl, by rfl⟩

/-- C3 (amended): when both the city and the specialty values are strings,
the classifier accepts iff (the ZIP is in the Atlanta allow-list OR the
upper-cased city *contains* one of the five city names as a substring) AND
the specialty contains (case-insensitively) one of the orthopedic specialty
names; in particular "Atlanta"/"Orthopedic Surgery" is accepted,
"Boston"/"Orthopedic Surgery" is rejected, and "Atlanta"/"Cardiology" is
rejected. -/
theorem classifier_geo_specialty_iff (r : RawRecord) (city specialty : String)
    (hc : getS r "Rndrng_Prvdr_City" = .str city)
    (hs : getS r "Provider_Type" = .str specialty) :
    (classify_record r = .ok true ↔
      ((∃ z ∈ atlanta_zips, getS r "Rndrng_Prvdr_Zip5" = Value.str z) ∨
        ∃ c ∈ ["ATLANTA", "DECATUR", "MARIETTA", "ROSWELL", "ALPHARETTA"],
          strContains (pyUpper city) c = true) ∧
      ∃ o ∈ orthopedic_specialties,
        strContains (pyUpper specialty) (pyUpper o) = true) ∧
    classify_record recAtlantaOrtho = .ok true ∧
    classify_record recBostonOrtho = .ok false ∧
    classify_record recAtlantaCardio = .ok false := by
  refine ⟨?_, by rfl, by rfl, by rfl⟩
  unfold classify_record
  rw [hc, hs]
  dsimp only
  rw [Except.ok.injEq]
  simp only [Bool.and_eq_true, Bool.or_eq_true, List.any_eq_true, beq_iff_eq,
    List.mem_cons, List.not_mem_nil, or_false]
  constructor
  · rintro ⟨hgeo, ho, hom, hoc⟩
    refine ⟨?_, ho, hom, hoc⟩
    rcases hgeo with ((((hz | h1) | h2) | h3) | h4) | h5
    · obtain ⟨z, hz1, hz2⟩ := hz
      exact Or.inl ⟨z, hz1, hz2⟩
    · exact Or.inr ⟨"ATLANTA", Or.inl rfl, h1⟩
    · exact Or.inr ⟨"DECATUR", Or.inr (Or.inl rfl), h2⟩
    · exact Or.inr ⟨"MARIETTA", Or.inr (Or.inr (Or.inl rfl)), h3⟩
    · exact Or.inr ⟨"ROSWELL", Or.inr (Or.inr (Or.inr (Or.inl rfl))), h4⟩
    · exact Or.inr ⟨"ALPHARETTA", Or.inr (Or.inr (Or.inr (Or.inr rfl))), h5⟩
  · rintro ⟨hgeo, o, hom, hoc⟩
    refine ⟨?_, o, hom, hoc⟩
    rcases hgeo with ⟨z, hz1, hz2⟩ | ⟨c, hcm, hcc⟩
    · exact Or.inl (Or.inl (Or.inl (Or.inl (Or.inl ⟨z, hz1, hz2⟩))))
    · rcases hcm with rfl | rfl | rfl | rfl | rfl
      · exact Or.inl (Or.inl (Or.inl (Or.inl (Or.inr hcc))))
      · exact Or.inl (Or.inl (Or.inl (Or.inr hcc)))
      · exact Or.inl (Or.inl (Or.inr hcc))
      · exact Or.inl (Or.inr hcc)
      · exact Or.inr hcc

/-- C3 witness: a record with ZIP 30309, city "Atlanta" and specialty
"Sports Medicine", on which the amended equivalence is instantiated. -/
theorem classifier_geo_specialty_iff_witness :
    (classify_record [("Rndrng_Prvdr_Zip5", Value.str "30309"),
        ("Rndrng_Prvdr_City", Value.str "Atlanta"),
        ("Provider_Type", Value.str "Sports Medicine")] = .ok true ↔
      ((∃ z ∈ atlanta_zips,
          getS [("Rndrng_Prvdr_Zip5", Value.str "30309"),
            ("Rndrng_Prvdr_City", Value.str "Atlanta"),
            ("Provider_Type", Value.str "Sports Medicine")] "Rndrng_Prvdr_Zip5" =
            Value.str z) ∨
        ∃ c ∈ ["ATLANTA", "DECATUR", "MARIETTA", "ROSWELL", "ALPHARETTA"],
          strContains (pyUpper "Atlanta") c = true) ∧
      ∃ o ∈ orthopedic_specialties,
        strContains (pyUpper "Sports Medicine") (pyUpper o) = true) ∧
    classify_record recAtlantaOrtho = .ok true ∧
    classify_record recBostonOrtho = .ok false ∧
    classify_record recAtlantaCardio = .ok false :=
  classifier_geo_specialty_iff
    [("Rndrng_Prvdr_Zip5", Value.str "30309"),
     ("Rndrng_Prvdr_City", Value.str "Atlanta"),
     ("Provider_Type", Value.str "Sports Medicine")]
    "Atlanta" "Sports Medicine" rfl rfl

/-- C4: within a period's batch, provider candidates are deduplicated by key
with last-seen-wins: no persisted candidate has a falsy (empty) key, and for
every truthy key the physicians table after the period's collection holds
exactly one row for that key, namely the profile extracted from the record
occurring latest in iteration order (rows for keys not in the batch are
untouched). -/
theorem collect_dedup_last_wins (y : Int) (outcome : FetchOutcome) (st : DBState)
    (r : RawRecord) (rs : List RawRecord) (dict : List (Value × PhysicianProfile))
    (procs : List ProcedureData) (k : Value)
    (hrecs : search_atlanta_orthopedic_physicians y 2000 outcome = r :: rs)
    (hp : processRecords y (r :: rs) [] [] = .ok (dict, procs))
    (ht : truthy k = true) :
    (∀ p ∈ dict.map (fun q => q.2), truthy p.npi = true) ∧
    ((collect_year_data y outcome .ok st).1.physicians.filter (fun q => q.npi == k) =
      match (r :: rs).reverse.find? (fun rec => npiOf rec == k) with
      | some rec => [extract_physician_profile rec]
      | none => st.physicians.filter (fun q => q.npi == k)) := by
  have hinv : DictInv dict :=
    processRecords_inv hp ⟨List.nodup_nil, fun p hp0 => absurd hp0 (List.not_mem_nil p)⟩
  constructor
  · intro p hmem
    obtain ⟨q, hq, rfl⟩ := List.mem_map.1 hmem
    obtain ⟨hnq, htq⟩ := hinv.2 q hq
    rw [hnq]
    exact htq
  · have hphys : (collect_year_data y outcome .ok st).1.physicians =
        (dict.map (fun p => p.2)).foldl upsert_physician st.physicians := by
      rw [collect_success hrecs hp]
      rfl
    rw [hphys]
    have hfind := processRecords_find? hp ht
    cases hfr : (r :: rs).reverse.find? (fun rec => npiOf rec == k) with
    | some rec =>
      rw [hfr] at hfind
      have hmem : (k, extract_physician_profile rec) ∈ dict :=
        List.mem_of_find?_eq_some hfind
      have hkrec : (extract_physician_profile rec).npi = k := by
        have := List.find?_some hfr
        simpa [npiOf] using this
      have hnd : ((dict.map (fun p => p.2)).map (fun q => q.npi)).Nodup := by
        rw [dict_values_npis (fun p hp0 => (hinv.2 p hp0).1)]
        exact hinv.1
      exact foldl_upsert_filter_mem hnd
        (List.mem_map.2 ⟨(k, extract_physician_profile rec), hmem, rfl⟩) hkrec
    | none =>
      rw [hfr] at hfind
      have hnone : dict.find? (fun p => p.1 == k) = none := hfind
      rw [List.find?_eq_none] at hnone
      refine foldl_upsert_filter_not_mem ?_
      intro p hmem hpk
      obtain ⟨q, hq, rfl⟩ := List.mem_map.1 hmem
      have hq1 := (hinv.2 q hq).1
      exact hnone q hq (by rw [beq_iff_eq, ← hq1]; exact hpk)

/-- C4 witness: two accepted records sharing NPI "1" with different street
addresses; the table ends up with exactly the second record's profile. -/
theorem collect_dedup_last_wins_witness :
    ((collect_year_data 2022 (.success 200 [recDup1, recDup2]) .ok
        emptyDB).1.physicians.filter (fun q => q.npi == Value.str "1") =
      match ([recDup1, recDup2] : List RawRecord).reverse.find?
          (fun rec => npiOf rec == Value.str "1") with
      | some rec => [extract_physician_profile rec]
      | none => emptyDB.physicians.filter (fun q => q.npi == Value.str "1")) :=
  (collect_dedup_last_wins 2022 (.success 200 [recDup1, recDup2]) emptyDB
    recDup1 [recDup2] [(Value.str "1", extract_physician_profile recDup2)] []
    (Value.str "1") (by rfl) (by rfl) rfl).2

/-- C9: an unexpected error raised during a period's processing — a record
extraction error, a failing physicians write, a failing procedures write, or
a failing run-log write inside the `try` — is caught at the period boundary:
`collect_year_data` appends a `FAILED` run-log row carrying the error
detail, returns `(0, 0)` normally (the second component is `.ok`, i.e.
nothing is raised to the caller), and the partial writes committed before
the error (the physicians batch when the procedures write fails; both
batches when the success-log write fails) are not rolled back. -/
theorem collect_error_boundary (y : Int) (outcome : FetchOutcome) (st : DBState)
    (r : RawRecord) (rs : List RawRecord) (dict : List (Value × PhysicianProfile))
    (procs : List ProcedureData) (e m : String)
    (hrecs : search_atlanta_orthopedic_physicians y 2000 outcome = r :: rs) :
    (processRecords y (r :: rs) [] [] = .error e →
      collect_year_data y outcome .ok st =
        ({ st with collection_logs := st.collection_logs ++ [⟨y, "FAILED", 0, 0, some e⟩] },
          .ok (0, 0))) ∧
    (processRecords y (r :: rs) [] [] = .ok (dict, procs) → dict ≠ [] →
      collect_year_data y outcome (.physFail m) st =
        ({ st with collection_logs := st.collection_logs ++ [⟨y, "FAILED", 0, 0, some m⟩] },
          .ok (0, 0))) ∧
    (processRecords y (r :: rs) [] [] = .ok (dict, procs) → procs ≠ [] →
      collect_year_data y outcome (.procFail m) st =
        (let st1 := save_physician_data (dict.map (fun p => p.2)) st
         ({ st1 with collection_logs := st1.collection_logs ++ [⟨y, "FAILED", 0, 0, some m⟩] },
          .ok (0, 0)))) ∧
    (processRecords y (r :: rs) [] [] = .ok (dict, procs) →
      collect_year_data y outcome (.logTryFail m) st =
        (let st2 := save_procedure_data procs
            (save_physician_data (dict.map (fun p => p.2)) st)
         ({ st2 with collection_logs := st2.collection_logs ++ [⟨y, "FAILED", 0, 0, some m⟩] },
          .ok (0, 0)))) := by
  refine ⟨fun hp => ?_, fun hp hd => ?_, fun hp hpr => ?_, fun hp => ?_⟩
  · rw [collect_fail_extract hrecs hp]
    rfl
  · rw [collect_fail_phys hrecs hp hd]
    rfl
  · rw [collect_fail_proc hrecs hp hpr]
    rfl
  · rw [collect_fail_logtry hrecs hp]
    rfl

/-- C9 witness: a failing procedures write ("disk full") after one accepted
record; the physician row stays persisted, the run log gains a FAILED row
with the detail, and the call returns `(0, 0)` without raising. -/
theorem collect_error_boundary_witness :
    collect_year_data 2022 (.success 200 [recAccepted]) (.procFail "disk full") emptyDB =
      (let st1 := save_physician_data
          ([(Value.str "1", extract_physician_profile recAccepted)].map (fun p => p.2))
          emptyDB
       ({ st1 with collection_logs :=
            st1.collection_logs ++ [⟨2022, "FAILED", 0, 0, some "disk full"⟩] },
        .ok (0, 0))) :=
  ((collect_error_boundary 2022 (.success 200 [recAccepted]) emptyDB recAccepted []
      [(Value.str "1", extract_physician_profile recAccepted)] [procW] "" "disk full"
      (by rfl)).2.2.1 (by rfl) (by simp))

/-- C6: after collecting a period whose batch covers `periodKeyCount`
distinct non-empty provider keys, the summary's total-providers count
increases by at most that many (exactly, when none of the keys existed
before); the period's service-line count in the store increases by exactly
the number of batch records with non-empty provider key and procedure code;
and the SUCCESS run log records exactly these two final counts. -/
theorem collect_round_trip_counts (y : Int) (outcome : FetchOutcome) (st : DBState)
    (r : RawRecord) (rs : List RawRecord) (dict : List (Value × PhysicianProfile))
    (procs : List ProcedureData)
    (hrecs : search_atlanta_orthopedic_physicians y 2000 outcome = r :: rs)
    (hp : processRecords y (r :: rs) [] [] = .ok (dict, procs)) :
    ((get_collection_summary (collect_year_data y outcome .ok st).1).total_physicians ≤
      (get_collection_summary st).total_physicians + periodKeyCount (r :: rs)) ∧
    (Disjoint (truthyNpiSet (r :: rs)) ((st.physicians.map (fun q => q.npi)).toFinset) →
      (get_collection_summary (collect_year_data y outcome .ok st).1).total_physicians =
        (get_collection_summary st).total_physicians + periodKeyCount (r :: rs)) ∧
    (yearLineCount (collect_year_data y outcome .ok st).1 y =
      yearLineCount st y + periodLineCount (r :: rs)) ∧
    ((collect_year_data y outcome .ok st).1.collection_logs =
      st.collection_logs ++
        [⟨y, "SUCCESS", (periodLineCount (r :: rs) : Int),
          (periodKeyCount (r :: rs) : Int), none⟩]) := by
  have hinv : DictInv dict :=
    processRecords_inv hp ⟨List.nodup_nil, fun p hp0 => absurd hp0 (List.not_mem_nil p)⟩
  have hkeys : (dict.map (fun p => p.1)).toFinset = truthyNpiSet (r :: rs) := by
    have h := processRecords_keys hp
    simpa using h
  have hC : procs.length = periodLineCount (r :: rs) := by
    have h := processRecords_count hp
    simpa [periodLineCount] using h
  have hlen : (dict.map (fun p => p.2)).length = periodKeyCount (r :: rs) := by
    rw [List.length_map]
    have h1 : dict.length = (dict.map (fun p => p.1)).length := (List.length_map _ _).symm
    rw [h1, ← List.toFinset_card_of_nodup hinv.1, hkeys]
    rfl
  have hphys : (collect_year_data y outcome .ok st).1.physicians =
      (dict.map (fun p => p.2)).foldl upsert_physician st.physicians := by
    rw [collect_success hrecs hp]
    rfl
  have hprocd : (collect_year_data y outcome .ok st).1.procedure_data =
      st.procedure_data ++ procs := by
    rw [collect_success hrecs hp]
    rfl
  have hlogs : (collect_year_data y outcome .ok st).1.collection_logs =
      st.collection_logs ++
        [⟨y, "SUCCESS", (procs.length : Int),
          ((dict.map (fun p => p.2)).length : Int), none⟩] := by
    rw [collect_success hrecs hp]
    rfl
  have huniv : (((collect_year_data y outcome .ok st).1.physicians.map
        (fun q => q.npi)).toFinset) =
      (st.physicians.map (fun q => q.npi)).toFinset ∪ truthyNpiSet (r :: rs) := by
    rw [hphys, foldl_upsert_npis_toFinset,
      dict_values_npis (fun p hp0 => (hinv.2 p hp0).1), hkeys]
  have htotal : (get_collection_summary (collect_year_data y outcome .ok st).1).total_physicians =
      ((st.physicians.map (fun q => q.npi)).toFinset ∪ truthyNpiSet (r :: rs)).card := by
    show total_physicians_count _ = _
    unfold total_physicians_count
    rw [huniv]
  refine ⟨?_, fun hdisj => ?_, ?_, ?_⟩
  · rw [htotal]
    calc ((st.physicians.map (fun q => q.npi)).toFinset ∪ truthyNpiSet (r :: rs)).card ≤
        (st.physicians.map (fun q => q.npi)).toFinset.card + (truthyNpiSet (r :: rs)).card :=
          Finset.card_union_le _ _
      _ = (get_collection_summary st).total_physicians + periodKeyCount (r :: rs) := rfl
  · rw [htotal, Finset.card_union_of_disjoint hdisj.symm]
    rfl
  · unfold yearLineCount
    rw [hprocd, List.filter_append, List.length_append]
    have hyear : procs.filter (fun p => p.year == y) = procs := by
      rw [List.filter_eq_self]
      intro p hmem
      have := processRecords_years hp p hmem
      rcases this with h0 | h0
      · exact absurd h0 (List.not_mem_nil p)
      · simp [h0]
    rw [hyear, hC]
  · rw [hlogs, hC, hlen]

/-- C6 witness: one accepted record (NPI "1", HCPCS "99213") collected into
the fresh store. -/
theorem collect_round_trip_counts_witness :
    ((get_collection_summary (collect_year_data 2022 (.success 200 [recAccepted])
        .ok emptyDB).1).total_physicians ≤
      (get_collection_summary emptyDB).total_physicians + periodKeyCount [recAccepted]) ∧
    (Disjoint (truthyNpiSet [recAccepted])
        ((emptyDB.physicians.map (fun q => q.npi)).toFinset) →
      (get_collection_summary (collect_year_data 2022 (.success 200 [recAccepted])
          .ok emptyDB).1).total_physicians =
        (get_collection_summary emptyDB).total_physicians + periodKeyCount [recAccepted]) ∧
    (yearLineCount (collect_year_data 2022 (.success 200 [recAccepted]) .ok emptyDB).1 2022 =
      yearLineCount emptyDB 2022 + periodLineCount [recAccepted]) ∧
    ((collect_year_data 2022 (.success 200 [recAccepted]) .ok emptyDB).1.collection_logs =
      emptyDB.collection_logs ++
        [⟨2022, "SUCCESS", (periodLineCount [recAccepted] : Int),
          (periodKeyCount [recAccepted] : Int), none⟩]) :=
  collect_round_trip_counts 2022 (.success 200 [recAccepted]) emptyDB recAccepted []
    [(Value.str "1", extract_physician_profile recAccepted)] [procW] (by rfl) (by rfl)

/-- C7: `run_full_collection` processes the requested periods in the
caller-supplied order (one `collected` event per period, in order, whatever
the per-period outcomes — one period's failure never aborts the rest); the
result map has exactly one entry per requested period; every pause is the
fixed two-second interval, and when no period's failure-log write itself
fails the trace is exactly collect-then-pause for each period in order; the
default period list is the five most recent years, newest first. -/
theorem run_collection_per_period (years : List Int)
    (outcomes : Int → FetchOutcome) (faults : Int → StoreFault) (st : DBState)
    (hnd : years.Nodup) :
    ((run_full_collection (some years) outcomes faults st).2.1.map (fun p => p.1) =
      years) ∧
    (∀ y ∈ years, ∃ entry, (y, entry) ∈
      (run_full_collection (some years) outcomes faults st).2.1) ∧
    (collectedYears (run_full_collection (some years) outcomes faults st).2.2 = years) ∧
    (∀ e ∈ (run_full_collection (some years) outcomes faults st).2.2,
      ∀ n, e = .slept n → n = 2) ∧
    ((∀ y ∈ years, logRaisesInHandler (faults y) = none) →
      (run_full_collection (some years) outcomes faults st).2.2 =
        years.flatMap (fun y => [.collected y, .slept 2])) ∧
    ((run_full_collection none outcomes faults st).2.1.map (fun p => p.1) =
      [2022, 2021, 2020, 2019, 2018]) := by
  have hkeys : ((run_full_collection (some years) outcomes faults st).2.1.map
      (fun p => p.1)) = years := by
    unfold run_full_collection
    have h := @run_loop_keys outcomes faults years st [] [] hnd
      (fun y _ hmem => by simp at hmem)
    simpa using h
  refine ⟨hkeys, ?_, ?_, ?_, ?_, ?_⟩
  · intro y hy
    have : y ∈ ((run_full_collection (some years) outcomes faults st).2.1.map
        (fun p => p.1)) := by rw [hkeys]; exact hy
    obtain ⟨p, hpmem, hpy⟩ := List.mem_map.1 this
    exact ⟨p.2, by rw [← hpy]; exact hpmem⟩
  · unfold run_full_collection
    have h := @run_loop_collected outcomes faults years st [] []
    simpa [collectedYears] using h
  · unfold run_full_collection
    exact run_loop_sleeps (fun e he => absurd he (List.not_mem_nil e))
  · intro hlog
    unfold run_full_collection
    have h := @run_loop_trace outcomes faults years st [] [] hlog
    simpa using h
  · unfold run_full_collection
    have h := @run_loop_keys outcomes faults [2022, 2021, 2020, 2019, 2018] st [] []
      (by decide) (fun y _ hmem => by simp at hmem)
    simpa using h

/-- C7 witness: two periods, both with a failing fetch, on the fresh store;
both periods are processed in order and both get a result entry. -/
theorem run_collection_per_period_witness :
    ((run_full_collection (some [2022, 2019]) (fun _ => .failure "down")
        (fun _ => .ok) emptyDB).2.1.map (fun p => p.1) = [2022, 2019]) ∧
    (∀ y ∈ [(2022 : Int), 2019], ∃ entry, (y, entry) ∈
      (run_full_collection (some [2022, 2019]) (fun _ => .failure "down")
        (fun _ => .ok) emptyDB).2.1) ∧
    (collectedYears (run_full_collection (some [2022, 2019]) (fun _ => .failure "down")
        (fun _ => .ok) emptyDB).2.2 = [2022, 2019]) ∧
    (∀ e ∈ (run_full_collection (some [2022, 2019]) (fun _ => .failure "down")
        (fun _ => .ok) emptyDB).2.2, ∀ n, e = .slept n → n = 2) ∧
    ((∀ y ∈ [(2022 : Int), 2019], logRaisesInHandler ((fun _ => .ok) y) = none) →
      (run_full_collection (some [2022, 2019]) (fun _ => .failure "down")
        (fun _ => .ok) emptyDB).2.2 =
        [(2022 : Int), 2019].flatMap (fun y => [.collected y, .slept 2])) ∧
    ((run_full_collection none (fun _ => .failure "down") (fun _ => .ok)
        emptyDB).2.1.map (fun p => p.1) = [2022, 2021, 2020, 2019, 2018]) :=
  run_collection_per_period [2022, 2019] (fun _ => .failure "down") (fun _ => .ok)
    emptyDB (by decide)

end CMS
